import Mathlib

/-!
Verification of the `logging` package (a structured-logging facade over
logrus with a bugsnag error-reporting hook and a go-nsq logger adapter).

The Go source is shallowly embedded:

* Go strings are modelled as Lean `String`s at character granularity
  (all tag/key comparisons in the source are on ASCII literals, where
  Go's byte indexing and character indexing coincide).
* The logrus field map (`logrus.Fields`) is modelled as an association
  list `GoFields` with last-write-wins insertion (`setField`), matching
  logrus's copy-and-assign `WithField`.
* Go `error` values are modelled by `GoError`: `errorString` stands for
  the values produced by `errors.New` / `fmt.Errorf` without `%w`
  (dynamic type `*errors.errorString`), and `wrapError` for
  `fmt.Errorf("...: %w", ...)` (dynamic type `*fmt.wrapError`).
* Machine integers (`int`, `int64 = time.Duration`) are modelled as
  `Int` with explicit wrapping (`wrap64`) where Go overflow matters;
  `uint64` values are modelled as `Nat`.
-/

/-- Model of a Go `error` value as relevant to this package:
`errorString` is an `errors.New`/`fmt.Errorf`-without-`%w` error,
`wrapError` is the result of `fmt.Errorf("%s: %w", msg, inner)`. -/
inductive GoError where
  | errorString (s : String)
  | wrapError (msg : String) (inner : GoError)
deriving DecidableEq

/-- Model of `errors.Unwrap`: a `*fmt.wrapError` unwraps to its inner error, a
plain `*errors.errorString` does not unwrap. -/
def goUnwrap : GoError → Option GoError
  | .errorString _ => none
  | .wrapError _ inner => some inner

/-- Model of `reflect.TypeOf(err).String()` for the two error shapes above. -/
def goErrorTypeString : GoError → String
  | .errorString _ => "*errors.errorString"
  | .wrapError _ _ => "*fmt.wrapError"

/-- The `Error()` text of a modelled Go error; `fmt.Errorf("%s: %w", m, e)`
renders as `m ++ ": " ++ e.Error()`. -/
def goErrorMessage : GoError → String
  | .errorString s => s
  | .wrapError msg inner => msg ++ ": " ++ goErrorMessage inner

/-- A value stored in a logrus field map: the package stores strings,
signed integers (`int`/`int64`), unsigned integers (`uint64`) and Go
`error` values. -/
inductive GoValue where
  | str (s : String)
  | int (n : Int)
  | uint (n : Nat)
  | err (e : GoError)
deriving DecidableEq

/-- A logrus `Fields` map, modelled as an association list whose keys are
unique (maintained by `setField`). Only key lookup is observable. -/
abbrev GoFields := List (String × GoValue)

/-- Map lookup on a field list: the value stored at `key`, if any. -/
def fieldsLookup : GoFields → String → Option GoValue
  | [], _ => none
  | kv :: rest, key => if kv.1 = key then some kv.2 else fieldsLookup rest key

/-- Model of `logrus.Entry.WithField`: copy the map and assign `key := v`
(last write wins, keys stay unique). -/
def setField : GoFields → String → GoValue → GoFields
  | [], key, v => [(key, v)]
  | kv :: rest, key, v =>
    if kv.1 = key then (key, v) :: rest else kv :: setField rest key v

/-- Model of `logrus.Entry.WithFields` with several keys: assign them in order. -/
def setFields (f : GoFields) (kvs : List (String × GoValue)) : GoFields :=
  kvs.foldl (fun acc kv => setField acc kv.1 kv.2) f

/-- Looking up the key just set returns the new value. -/
theorem fieldsLookup_setField_self (f : GoFields) (k : String) (v : GoValue) :
    fieldsLookup (setField f k v) k = some v := by
  induction f with
  | nil => simp [setField, fieldsLookup]
  | cons kv rest ih =>
    by_cases hk : kv.1 = k <;> simp [setField, fieldsLookup, hk, ih]

/-- Setting a key leaves every other key's value unchanged. -/
theorem fieldsLookup_setField_ne (f : GoFields) (k key : String) (v : GoValue)
    (h : key ≠ k) :
    fieldsLookup (setField f k v) key = fieldsLookup f key := by
  induction f with
  | nil => simp [setField, fieldsLookup, Ne.symm h]
  | cons kv rest ih =>
    by_cases hk : kv.1 = k
    · have hkey : ¬k = key := Ne.symm h
      have hkv : ¬kv.1 = key := by rw [hk]; exact hkey
      simp [setField, fieldsLookup, hk, hkey, hkv]
    · by_cases hkv : kv.1 = key <;> simp [setField, fieldsLookup, hk, hkv, ih, h]

/-- Model of `unicode.IsSpace` restricted to the code points Go's Latin-1 fast
path recognizes: `'\t'`, `'\n'`, `'\v'`, `'\f'`, `'\r'`, `' '`, U+0085,
U+00A0. -/
def goIsSpace (c : Char) : Bool :=
  c = '\t' || c = '\n' || c = '\x0b' || c = '\x0c' || c = '\r' ||
    c = ' ' || c = '\u0085' || c = '\u00A0'

/-- Model of `strings.TrimSpace`: drop leading and trailing white space. -/
def goTrimSpace (s : String) : String :=
  ⟨((s.data.dropWhile goIsSpace).reverse.dropWhile goIsSpace).reverse⟩

theorem string_length_pos_iff (s : String) : 0 < s.length ↔ s ≠ "" := by
  rw [String.length]
  constructor
  · intro h hc
    rw [hc] at h
    simp at h
  · intro h
    rcases hd : s.data with _ | _
    · exact absurd (by cases s; simp_all) h
    · simp [hd]

/-! ## `strconv.Atoi` (= `strconv.ParseInt(s, 10, 64)` on a 64-bit platform) -/

/-- The error component of a Go `strconv.NumError`. -/
inductive GoNumErr where
  | badSyntax
  | outOfRange
deriving DecidableEq

/-- Inner digit loop of `strconv.ParseUint(s, 10, 64)`: scan characters,
fail with a syntax error at the first non-digit, clamp to `2^64 - 1`
with a range error as soon as the accumulator would overflow
(`cutoff = (2^64-1)/10 + 1`, `maxVal = 2^64 - 1`). -/
def parseUintLoop : List Char → Nat → Nat × Option GoNumErr
  | [], n => (n, none)
  | c :: cs, n =>
    if 48 ≤ c.toNat ∧ c.toNat ≤ 57 then
      if 1844674407370955162 ≤ n then (18446744073709551615, some .outOfRange)
      else
        let n1 := n * 10 + (c.toNat - 48)
        if 18446744073709551615 < n1 then (18446744073709551615, some .outOfRange)
        else parseUintLoop cs n1
    else (0, some .badSyntax)

/-- Model of `strconv.ParseUint(s, 10, 64)`: empty input is a syntax error,
otherwise run the digit loop. -/
def goParseUint64 (cs : List Char) : Nat × Option GoNumErr :=
  if cs = [] then (0, some .badSyntax) else parseUintLoop cs 0

/-- Model of `strconv.ParseInt(s, 10, 64)`: strip an optional sign, parse the
magnitude with `ParseUint`, then clamp into the `int64` range
(`cutoff = 1 << 63`), carrying a range error when clamping. A syntax
error from `ParseUint` yields 0. -/
def goParseInt64 (s : String) : Int × Option GoNumErr :=
  if s.data = [] then (0, some .badSyntax)
  else
    let neg : Bool := s.data.headD ' ' = '-'
    let rest : List Char :=
      if s.data.headD ' ' = '+' ∨ s.data.headD ' ' = '-' then s.data.tail else s.data
    match goParseUint64 rest with
    | (_, some .badSyntax) => (0, some .badSyntax)
    | (un, e) =>
      if ¬neg ∧ 9223372036854775808 ≤ un then (9223372036854775807, some .outOfRange)
      else if neg ∧ 9223372036854775808 < un then (-9223372036854775808, some .outOfRange)
      else ((if neg then -(un : Int) else (un : Int)), e)

/-- Model of `strconv.Atoi` on a 64-bit platform: same value and error as
`ParseInt(s, 10, 64)` (the fast path for short inputs agrees). -/
def goAtoi (s : String) : Int × Option GoNumErr := goParseInt64 s

/-! ## Severity vocabularies and the Level Mapper -/

/-- Model of `logrus.PanicLevel` (logrus levels are a `uint32`). -/
def logrusPanicLevel : Nat := 0
/-- Model of `logrus.FatalLevel`. -/
def logrusFatalLevel : Nat := 1
/-- Model of `logrus.ErrorLevel`. -/
def logrusErrorLevel : Nat := 2
/-- Model of `logrus.WarnLevel`. -/
def logrusWarnLevel : Nat := 3
/-- Model of `logrus.InfoLevel`. -/
def logrusInfoLevel : Nat := 4
/-- Model of `logrus.DebugLevel`. -/
def logrusDebugLevel : Nat := 5

/-- The go-nsq `LogLevel` vocabulary. -/
inductive NSQLogLevel where
  | debug
  | info
  | warning
  | error
deriving DecidableEq

/-- go-nsq `LogLevel.String()`: `Info`, `Warning` and `Error` have
explicit cases; everything else (i.e. `Debug`) renders as `"DBG"`. -/
def nsqLogLevelString : NSQLogLevel → String
  | .info => "INF"
  | .warning => "WRN"
  | .error => "ERR"
  | .debug => "DBG"

/-- Package-level `nsqDebugLevel = nsq.LogLevelDebug.String()`. -/
def nsqDebugLevel : String := nsqLogLevelString .debug
/-- Package-level `nsqInfoLevel = nsq.LogLevelInfo.String()`. -/
def nsqInfoLevel : String := nsqLogLevelString .info
/-- Package-level `nsqWarnLevel = nsq.LogLevelWarning.String()`. -/
def nsqWarnLevel : String := nsqLogLevelString .warning
/-- Package-level `nsqErrLevel = nsq.LogLevelError.String()`. -/
def nsqErrLevel : String := nsqLogLevelString .error

/-- Model of `Logger.getNSQLogLevel`: switch on the logrus level of the logger,
with `nsq.LogLevelInfo` as the fall-through result. -/
def getNSQLogLevel (level : Nat) : NSQLogLevel :=
  if level = logrusDebugLevel then .debug
  else if level = logrusInfoLevel then .info
  else if level = logrusWarnLevel then .warning
  else if level = logrusErrorLevel then .error
  else if level = logrusFatalLevel then .error
  else if level = logrusPanicLevel then .error
  else .info

/-- The `lookup` map literal inside `getLogrusLogLevel`. -/
def logLevelLookup : List (String × Nat) :=
  [("ERROR", logrusErrorLevel), ("WARNING", logrusWarnLevel),
   ("INFO", logrusInfoLevel), ("DEBUG", logrusDebugLevel)]

/-- Model of `getLogrusLogLevel`: look the string up in the map; on a miss the
level is `logrus.InfoLevel`. -/
def getLogrusLogLevel (level : String) : Nat :=
  match logLevelLookup.find? (fun p => p.1 = level) with
  | some p => p.2
  | none => logrusInfoLevel

/-- Model of `strings.Split(s, sep)` for a one-character separator, written by
structural recursion (Lean's `String.splitOn` is extensionally the same
but does not reduce definitionally). Never returns an empty list. -/
def goSplitAux (sep : Char) : List Char → List Char → List String
  | [], acc => [⟨acc.reverse⟩]
  | c :: cs, acc =>
    if c = sep then ⟨acc.reverse⟩ :: goSplitAux sep cs []
    else goSplitAux sep cs (c :: acc)

/-- Model of `strings.Split` on a string. -/
def goSplit (s : String) (sep : Char) : List String :=
  goSplitAux sep s.data []

/-! ## Entry enrichment (field-set semantics)

An `Entry`'s observable state for these claims is its field map, so the
methods are modelled as functions `GoFields → ... → GoFields`. -/

/-- Model of `Entry.WithField` (delegates to `logrus.Entry.WithField`). -/
def withField (e : GoFields) (field : String) (value : GoValue) : GoFields :=
  setField e field value

/-- Model of `Entry.WithStringFieldIgnoreEmpty`: add the field only when the
value trimmed of white space is non-empty. -/
def withStringFieldIgnoreEmpty (e : GoFields) (field value : String) : GoFields :=
  if 0 < (goTrimSpace value).length then withField e field (.str value) else e

/-- Model of `Entry.WithUser`. -/
def withUser (e : GoFields) (userID : Nat) : GoFields :=
  withField e "user_id" (.uint userID)

/-- Model of `Entry.WithEvent`: split on `","`; two parts give `event_name` and
`object_id`, three parts additionally `subject_id` (IDs via
`strconv.Atoi`, errors discarded), any other shape falls back to a raw
`event` field. -/
def withEvent (e : GoFields) (event : String) : GoFields :=
  let split := goSplit event ','
  let eventName := split.headD ""
  if split.length = 2 then
    withField (withStringFieldIgnoreEmpty e "event_name" eventName)
      "object_id" (.int (goAtoi (split.getD 1 "")).1)
  else if split.length = 3 then
    withField
      (withField (withStringFieldIgnoreEmpty e "event_name" eventName)
        "object_id" (.int (goAtoi (split.getD 1 "")).1))
      "subject_id" (.int (goAtoi (split.getD 2 "")).1)
  else
    withStringFieldIgnoreEmpty e "event" event

/-- Model of `Entry.WithRelation`. -/
def withRelation (e : GoFields) (relation : String) : GoFields :=
  withStringFieldIgnoreEmpty e "relation" relation

/-- Model of `Entry.WithChannel`. -/
def withChannel (e : GoFields) (channel : String) : GoFields :=
  withField e "channel" (.str channel)

/-- Model of `Entry.WithError` (logrus stores the error under key `"error"`). -/
def withError (e : GoFields) (err : GoError) : GoFields :=
  setField e "error" (.err err)

/-! ## `time.Duration` rounding (`Duration.Round(time.Millisecond)`)

`time.Duration` is an `int64` nanosecond count; its arithmetic wraps
modulo `2^64` and `Round` saturates to `minDuration`/`maxDuration` when
the rounded value would overflow. -/

/-- Model of `math.MaxInt64`, the largest `time.Duration`. -/
def maxInt64 : Int := 9223372036854775807

/-- Model of `math.MinInt64`, the smallest `time.Duration`. -/
def minInt64 : Int := -9223372036854775808

/-- Two's-complement wrap of an integer into the `int64` range, the
effect of Go's wrapping `int64` addition/subtraction. -/
def wrap64 (n : Int) : Int :=
  (n + 9223372036854775808) % 18446744073709551616 - 9223372036854775808

/-- Go's `%` on `int64` (truncated remainder, sign of the dividend),
for a positive modulus. -/
def goRem (d m : Int) : Int :=
  if 0 ≤ d then d % m else -((-d) % m)

/-- Go's `/` on `int64` (truncated quotient), for a positive divisor. -/
def goQuo (d m : Int) : Int :=
  if 0 ≤ d then d / m else -((-d) / m)

/-- Model of `time.Duration.Round(time.Millisecond)` for `m = 10^6 > 0`:
`r := d % m`; round down when `r+r < m`, otherwise round up/down away
from zero, saturating at `maxDuration`/`minDuration` when the wrapped
candidate fails the overflow check (`lessThanHalf(x, y)` is `x+x < y`,
exact here since `0 ≤ r < m`). -/
def durRound (d : Int) : Int :=
  let m : Int := 1000000
  let r := goRem d m
  if d < 0 then
    let r2 := -r
    if r2 + r2 < m then d + r2
    else
      let d1 := wrap64 (d - m + r2)
      if d1 < d then d1 else minInt64
  else
    if r + r < m then d - r
    else
      let d1 := wrap64 (d + m - r)
      if d1 > d then d1 else maxInt64

/-- Model of `Entry.WithDuration`:
`duration_ms = d.Round(time.Millisecond).Nanoseconds() / 1000000`. -/
def withDuration (e : GoFields) (d : Int) : GoFields :=
  withField e "duration_ms" (.int (goQuo (durRound d) 1000000))

/-- Model of `Entry.WithE2EDuration`: the same value under `e2e_duration_ms`. -/
def withE2EDuration (e : GoFields) (d : Int) : GoFields :=
  withField e "e2e_duration_ms" (.int (goQuo (durRound d) 1000000))

/-! ## The NSQ logger adapter -/

/-- Model of `NSQLogger.Output(_ int, s string)`: for messages longer than three
characters, dispatch the trimmed remainder `s[3:]` at the logrus level
selected by comparing the prefix `s[:3]` with the four go-nsq level
names, defaulting to Info; shorter messages do nothing. The result is
the list of emissions performed paired with the returned error (always
`nil`). -/
def nsqOutput (callDepth : Int) (s : String) : List (Nat × String) × Option GoError :=
  let _ := callDepth
  if 3 < s.length then
    let msg := goTrimSpace (s.drop 3)
    let tag := s.take 3
    (if tag = nsqDebugLevel then [(logrusDebugLevel, msg)]
     else if tag = nsqInfoLevel then [(logrusInfoLevel, msg)]
     else if tag = nsqWarnLevel then [(logrusWarnLevel, msg)]
     else if tag = nsqErrLevel then [(logrusErrorLevel, msg)]
     else [(logrusInfoLevel, msg)], none)
  else ([], none)

/-! ## The bugsnag hook -/

/-- A logrus record as the hook sees it: the message plus the field map. -/
structure LogrusRecord where
  message : String
  data : GoFields
deriving DecidableEq

/-- The bugsnag `MetaData` value built by the hook: one tab named
`"metadata"` holding a copy of the record's fields. -/
abbrev BugsnagMetaData := List (String × GoFields)

/-- Model of `bugsnagHook.Fire`: build the notified error from the `"error"`
field and the message, collect every other field under the
`"metadata"` tab, and return whatever `bugsnag.Notify` returns. The
external notifier is passed in as a function. -/
def bugsnagHookFire (notify : GoError → BugsnagMetaData → Option GoError)
    (entry : LogrusRecord) : Option GoError :=
  let notifyErr : GoError :=
    match fieldsLookup entry.data "error" with
    | some (.err err) =>
      if entry.message ≠ "" then .wrapError entry.message err else err
    | _ => .errorString entry.message
  let metadata : BugsnagMetaData :=
    [("metadata", entry.data.filter (fun kv => kv.1 ≠ "error"))]
  match notify notifyErr metadata with
  | some bugsnagErr => some bugsnagErr
  | none => none

/-- Model of `bugsnagHook.Levels`: the logrus levels this hook registers for. -/
def bugsnagHookLevels : List Nat :=
  [logrusErrorLevel, logrusFatalLevel, logrusPanicLevel]

/-- logrus fires a hook for a record exactly when the record's level is
in the hook's `Levels()` list. -/
def bugsnagHookFires (level : Nat) : Bool :=
  bugsnagHookLevels.contains level

/-! ## The `OnBeforeNotify` unwrap loop in `Init` -/

/-- The `for` loop registered by `Init` with `bugsnag.OnBeforeNotify`,
with explicit fuel. State: the current `errClass` string and `count`.
Each iteration that does not break unwraps `event.Error.Err` — the same
top-level error every time — and replaces `errClass` with the dynamic
type of that unwrapped value. `some (errClass, count)` is the state at
a `break`; `none` means the loop was still running when the fuel ran
out. -/
def onBeforeNotifyLoop : Nat → GoError → String → Nat → Option (String × Nat)
  | 0, _, _, _ => none
  | fuel + 1, topErr, errClass, count =>
    if errClass ≠ "*fmt.wrapError" then some (errClass, count)
    else
      match goUnwrap topErr with
      | none => some (errClass, count)
      | some wrappedError =>
        onBeforeNotifyLoop fuel topErr (goErrorTypeString wrappedError) (count + 1)

/-! ## `Init` and the process-wide logger -/

/-- The `LoggingConfig` struct. -/
structure LoggingConfig where
  logLevel : String
  environment : String
  appVersion : String
  bugsnagAPIKey : String
  bugsnagNotifyReleaseStages : List String
  bugsnagProjectPackages : List String
  bugsnagProjectPaths : List String
  bugsnagPackageRoot : String
deriving DecidableEq

/-- The observable configuration of a constructed `Logger`: its logrus
level, the JSON formatter's timestamp format and message-key renaming,
and whether the bugsnag hook is registered. -/
structure LoggerModel where
  level : Nat
  timestampFormat : String
  messageKey : String
  hasBugsnagHook : Bool
deriving DecidableEq

/-- The package's `new`: JSON formatter with `time.RFC3339Nano`
timestamps and the message key renamed to `"message"`, level from
`getLogrusLogLevel`, bugsnag hook added when requested. -/
def newLogger (withBugsnag : Bool) (config : LoggingConfig) : LoggerModel :=
  { level := getLogrusLogLevel config.logLevel
    timestampFormat := "2006-01-02T15:04:05.999999999Z07:00"
    messageKey := "message"
    hasBugsnagHook := withBugsnag }

/-- The global bugsnag configuration installed by `bugsnag.Configure`. -/
structure BugsnagConfigModel where
  apiKey : String
  releaseStage : String
  appVersion : String
  notifyReleaseStages : List String
  projectPackages : List String
  projectPaths : List String
  packageRoot : String
deriving DecidableEq

/-- The `bugsnag.Configuration` value `Init` passes to
`bugsnag.Configure`. -/
def mkBugsnagConfig (config : LoggingConfig) : BugsnagConfigModel :=
  { apiKey := config.bugsnagAPIKey
    releaseStage := config.environment
    appVersion := config.appVersion
    notifyReleaseStages := config.bugsnagNotifyReleaseStages
    projectPackages := config.bugsnagProjectPackages
    projectPaths := config.bugsnagProjectPaths
    packageRoot := config.bugsnagPackageRoot }

/-- Process-wide state touched by `Init`: the `Log` global and the
bugsnag client configuration. -/
structure ProcessState where
  log : Option LoggerModel
  bugsnagConfig : Option BugsnagConfigModel
deriving DecidableEq

/-- Model of `Init(config)`: only when `Log` is still nil, configure bugsnag and
assign `Log = new(true, config)`; otherwise do nothing. -/
def goInit (st : ProcessState) (config : LoggingConfig) : ProcessState :=
  if st.log = none then
    { log := some (newLogger true config)
      bugsnagConfig := some (mkBugsnagConfig config) }
  else st

/-! ## Heap semantics for the enrichment chain

`*Entry` values are pointers to logrus entries whose `Data` maps live on
the heap. To state that no method mutates the receiver's field set in
place, the heap is modelled explicitly: a `Store` of field maps, an
entry is an index into it, and `logrus.Entry.WithField`/`WithFields`
allocate a fresh copied map (as the logrus source does) instead of
writing through the receiver. -/

/-- The heap: cell `i` holds the field map of entry `i`. -/
structure Store where
  cells : List GoFields
deriving DecidableEq

/-- An entry reference: an index into the store. -/
abbrev EntryRef := Nat

/-- Read an entry's field map. -/
def readCell (st : Store) (r : EntryRef) : GoFields :=
  st.cells.getD r []

/-- Allocate a fresh entry holding `f`. -/
def allocCell (st : Store) (f : GoFields) : Store × EntryRef :=
  (⟨st.cells ++ [f]⟩, st.cells.length)

/-- Model of `logrus.Entry.WithField` on the heap: copy the receiver's map, set
the key, store the copy in a fresh entry. -/
def withFieldS (st : Store) (e : EntryRef) (field : String) (value : GoValue) :
    Store × EntryRef :=
  allocCell st (setField (readCell st e) field value)

/-- Model of `logrus.Entry.WithFields` on the heap: one fresh copy holding all
the added keys. -/
def withFieldsS (st : Store) (e : EntryRef) (kvs : List (String × GoValue)) :
    Store × EntryRef :=
  allocCell st (setFields (readCell st e) kvs)

/-- Model of `Entry.WithRutilus` on the heap. -/
def withRutilusS (st : Store) (e : EntryRef) : Store × EntryRef :=
  withFieldS st e "service" (.str "rutilus")

/-- Model of `Entry.WithHTTPMethod` on the heap. -/
def withHTTPMethodS (st : Store) (e : EntryRef) (method : String) : Store × EntryRef :=
  withFieldS st e "http_method" (.str method)

/-- Model of `Entry.WithHTTPResponseCode` on the heap (`strconv.Itoa(code)`). -/
def withHTTPResponseCodeS (st : Store) (e : EntryRef) (code : Int) : Store × EntryRef :=
  withFieldS st e "http_response_code" (.str (toString code))

/-- Model of `Entry.WithStringFieldIgnoreEmpty` on the heap: note that the blank
case returns the receiver itself, allocating nothing. -/
def withStringFieldIgnoreEmptyS (st : Store) (e : EntryRef) (field value : String) :
    Store × EntryRef :=
  if 0 < (goTrimSpace value).length then withFieldS st e field (.str value)
  else (st, e)

/-- Model of `Entry.WithUser` on the heap. -/
def withUserS (st : Store) (e : EntryRef) (userID : Nat) : Store × EntryRef :=
  withFieldS st e "user_id" (.uint userID)

/-- Model of `Entry.WithEvent` on the heap, with the store threaded through the
chained calls of the source. -/
def withEventS (st : Store) (e : EntryRef) (event : String) : Store × EntryRef :=
  let split := goSplit event ','
  let eventName := split.headD ""
  if split.length = 2 then
    let p1 := withStringFieldIgnoreEmptyS st e "event_name" eventName
    withFieldS p1.1 p1.2 "object_id" (.int (goAtoi (split.getD 1 "")).1)
  else if split.length = 3 then
    let p1 := withStringFieldIgnoreEmptyS st e "event_name" eventName
    let p2 := withFieldS p1.1 p1.2 "object_id" (.int (goAtoi (split.getD 1 "")).1)
    withFieldS p2.1 p2.2 "subject_id" (.int (goAtoi (split.getD 2 "")).1)
  else
    withStringFieldIgnoreEmptyS st e "event" event

/-- Model of `Entry.WithRelation` on the heap. -/
def withRelationS (st : Store) (e : EntryRef) (relation : String) : Store × EntryRef :=
  withStringFieldIgnoreEmptyS st e "relation" relation

/-- Model of `Entry.WithNSQMessageID` on the heap (`fmt.Sprintf("%s", id)` is the
16-byte message id rendered as a string, supplied here already
formatted). -/
def withNSQMessageIDS (st : Store) (e : EntryRef) (id : String) : Store × EntryRef :=
  withStringFieldIgnoreEmptyS st e "nsq_message_id" id

/-- Model of `Entry.WithDuration` on the heap. -/
def withDurationS (st : Store) (e : EntryRef) (d : Int) : Store × EntryRef :=
  withFieldS st e "duration_ms" (.int (goQuo (durRound d) 1000000))

/-- Model of `Entry.WithE2EDuration` on the heap. -/
def withE2EDurationS (st : Store) (e : EntryRef) (d : Int) : Store × EntryRef :=
  withFieldS st e "e2e_duration_ms" (.int (goQuo (durRound d) 1000000))

/-- Model of `Entry.WithChannel` on the heap. -/
def withChannelS (st : Store) (e : EntryRef) (channel : String) : Store × EntryRef :=
  withFieldS st e "channel" (.str channel)

/-- Model of `Entry.WithFCM` on the heap. -/
def withFCMS (st : Store) (e : EntryRef) : Store × EntryRef :=
  withChannelS st e "fcm"

/-- Model of `Entry.WithNotificationlist` on the heap. -/
def withNotificationlistS (st : Store) (e : EntryRef) : Store × EntryRef :=
  withChannelS st e "notificationlist"

/-- Model of `Entry.WithError` on the heap. -/
def withErrorS (st : Store) (e : EntryRef) (err : GoError) : Store × EntryRef :=
  withFieldS st e "error" (.err err)

/-- A Datadog span as `WithDDTrace` reads it: numeric trace and span
identifiers. -/
structure SpanModel where
  traceID : Nat
  spanID : Nat
deriving DecidableEq

/-- Model of `Entry.WithDDTrace` on the heap: with a span in the context, one
`WithFields` call adding both ids; without one, return the receiver. -/
def withDDTraceS (st : Store) (e : EntryRef) (ctx : Option SpanModel) :
    Store × EntryRef :=
  match ctx with
  | some span =>
    withFieldsS st e [("dd.trace_id", .uint span.traceID), ("dd.span_id", .uint span.spanID)]
  | none => (st, e)

/-- Store extension: `st'` keeps every existing cell of `st` readable
and unchanged. -/
def StoreExtends (st st' : Store) : Prop :=
  st.cells.length ≤ st'.cells.length ∧
    ∀ r : EntryRef, r < st.cells.length → readCell st' r = readCell st r

theorem storeExtends_refl (st : Store) : StoreExtends st st :=
  ⟨Nat.le_refl _, fun _ _ => rfl⟩

theorem storeExtends_trans {a b c : Store}
    (h1 : StoreExtends a b) (h2 : StoreExtends b c) : StoreExtends a c :=
  ⟨Nat.le_trans h1.1 h2.1,
   fun r hr => (h2.2 r (Nat.lt_of_lt_of_le hr h1.1)).trans (h1.2 r hr)⟩

theorem storeExtends_alloc (st : Store) (f : GoFields) :
    StoreExtends st (allocCell st f).1 := by
  refine ⟨by simp [allocCell], fun r hr => ?_⟩
  simp only [allocCell, readCell]
  simp [List.getD, List.getElem?_append_left hr]

theorem storeExtends_withFieldS (st : Store) (e : EntryRef) (k : String) (v : GoValue) :
    StoreExtends st (withFieldS st e k v).1 :=
  storeExtends_alloc st _

theorem storeExtends_withFieldsS (st : Store) (e : EntryRef)
    (kvs : List (String × GoValue)) :
    StoreExtends st (withFieldsS st e kvs).1 :=
  storeExtends_alloc st _

theorem storeExtends_withStringFieldIgnoreEmptyS (st : Store) (e : EntryRef)
    (k v : String) :
    StoreExtends st (withStringFieldIgnoreEmptyS st e k v).1 := by
  unfold withStringFieldIgnoreEmptyS
  by_cases h : 0 < (goTrimSpace v).length
  · simpa [h] using storeExtends_withFieldS st e k (.str v)
  · simpa [h] using storeExtends_refl st

theorem storeExtends_withEventS (st : Store) (e : EntryRef) (event : String) :
    StoreExtends st (withEventS st e event).1 := by
  unfold withEventS
  by_cases h2 : (goSplit event ',').length = 2
  · simp only [h2, if_true]
    exact storeExtends_trans
      (storeExtends_withStringFieldIgnoreEmptyS st e "event_name" _)
      (storeExtends_withFieldS _ _ "object_id" _)
  · by_cases h3 : (goSplit event ',').length = 3
    · simp only [h2, h3, if_false, if_true]
      exact storeExtends_trans
        (storeExtends_withStringFieldIgnoreEmptyS st e "event_name" _)
        (storeExtends_trans (storeExtends_withFieldS _ _ "object_id" _)
          (storeExtends_withFieldS _ _ "subject_id" _))
    · simp only [h2, h3, if_false]
      exact storeExtends_withStringFieldIgnoreEmptyS st e "event" event

theorem storeExtends_withDDTraceS (st : Store) (e : EntryRef) (ctx : Option SpanModel) :
    StoreExtends st (withDDTraceS st e ctx).1 := by
  cases ctx with
  | some span => exact storeExtends_withFieldsS st e _
  | none => exact storeExtends_refl st

/-! ## Specification-side definitions

Each definition below is written from the wording of the corresponding
spec claim, to be compared with the source-derived definitions above. -/

/-- C2 spec side: the adapter's behavior described with the literal
three-character tags of the queue client's level names. -/
def nsqOutputSpec (s : String) : List (Nat × String) × Option GoError :=
  if 3 < s.length then
    let msg := goTrimSpace (s.drop 3)
    let tag := s.take 3
    (if tag = "DBG" then [(logrusDebugLevel, msg)]
     else if tag = "INF" then [(logrusInfoLevel, msg)]
     else if tag = "WRN" then [(logrusWarnLevel, msg)]
     else if tag = "ERR" then [(logrusErrorLevel, msg)]
     else [(logrusInfoLevel, msg)], none)
  else ([], none)

/-- C4 spec side: the reportable error the hook is claimed to build:
wrap the `error` field with the message when the message is non-empty,
use it as-is when the message is empty, and fall back to an error made
from the message alone. -/
def reportableErrorSpec (entry : LogrusRecord) : GoError :=
  match fieldsLookup entry.data "error" with
  | some (.err err) =>
    if entry.message = "" then err else .wrapError entry.message err
  | _ => .errorString entry.message

/-- C7 spec side: the claimed severity translation, with one `.error`
case for ERROR/FATAL/PANIC and Info for every other value. -/
def getNSQLogLevelSpec (level : Nat) : NSQLogLevel :=
  if level = logrusDebugLevel then .debug
  else if level = logrusInfoLevel then .info
  else if level = logrusWarnLevel then .warning
  else if level = logrusErrorLevel ∨ level = logrusFatalLevel ∨ level = logrusPanicLevel
    then .error
  else .info

/-- C1 spec side (amended): the value observable at `key` after
`WithEvent(raw)`, per the claim's description of the two-, three- and
other-part cases. -/
def withEventSpec (e : GoFields) (raw : String) (key : String) : Option GoValue :=
  let parts := goSplit raw ','
  let name := parts.headD ""
  if parts.length = 2 then
    if key = "object_id" then some (.int (goAtoi (parts.getD 1 "")).1)
    else if key = "event_name" then
      if goTrimSpace name = "" then fieldsLookup e key else some (.str name)
    else fieldsLookup e key
  else if parts.length = 3 then
    if key = "subject_id" then some (.int (goAtoi (parts.getD 2 "")).1)
    else if key = "object_id" then some (.int (goAtoi (parts.getD 1 "")).1)
    else if key = "event_name" then
      if goTrimSpace name = "" then fieldsLookup e key else some (.str name)
    else fieldsLookup e key
  else
    if key = "event" then
      if goTrimSpace raw = "" then fieldsLookup e key else some (.str raw)
    else fieldsLookup e key

/-- C5 spec side: the duration rounded to the nearest whole millisecond
count in nanoseconds, ties away from zero (Go's `Duration.Round`
tie-break), as an unbounded integer. -/
def roundNearestMs (d : Int) : Int :=
  if 0 ≤ d then ((d + 500000) / 1000000) * 1000000
  else -(((-d + 500000) / 1000000) * 1000000)

/-- Saturation of an unbounded integer into the `int64` range. -/
def satInt64 (n : Int) : Int :=
  if maxInt64 < n then maxInt64 else if n < minInt64 then minInt64 else n

/-- C5 as literally claimed: nanoseconds rounded to whole milliseconds,
then divided by 1,000,000 with truncation — with no saturation step. -/
def claimDurationMs (d : Int) : Int :=
  goQuo (roundNearestMs d) 1000000

/-- The error value used to exhibit the non-terminating unwrap loop:
`fmt.Errorf("a: %w", fmt.Errorf("b: %w", errors.New("c")))`. -/
def badWrappedError : GoError :=
  .wrapError "a: b: c" (.wrapError "b: c" (.errorString "c"))

/-! ## Claim theorems -/

/-- C2: for every call depth and message string, `NSQLogger.Output`
returns a nil error; a message of length at most three emits nothing,
a longer one has its first three characters compared against the queue
client's level names (`"DBG"`, `"INF"`, `"WRN"`, `"ERR"`), is stripped
of them and trimmed, and the remainder is emitted at the matching
severity, Info by default. -/
theorem nsqOutput_decodes_severity_tag :
    ∀ (callDepth : Int) (s : String), nsqOutput callDepth s = nsqOutputSpec s := by
  intro callDepth s
  rfl

/-- C3: the error-class unwrap loop registered with
`bugsnag.OnBeforeNotify` does NOT terminate on a doubly wrapped error:
because every iteration unwraps the unchanged top-level error, the
class stays `"*fmt.wrapError"` forever, so no amount of fuel reaches a
`break`. This refutes the claimed termination and exhibits the code
bug. -/
theorem onBeforeNotifyLoop_diverges_on_nested_wrap :
    ∀ (fuel count : Nat),
      onBeforeNotifyLoop fuel badWrappedError "*fmt.wrapError" count = none := by
  intro fuel
  induction fuel with
  | zero => intro count; rfl
  | succ n ih =>
    intro count
    have step : onBeforeNotifyLoop (n + 1) badWrappedError "*fmt.wrapError" count =
        onBeforeNotifyLoop n badWrappedError "*fmt.wrapError" (count + 1) := rfl
    rw [step]
    exact ih (count + 1)

/-- C4: the bugsnag hook registers for exactly ERROR, FATAL and PANIC,
and for every fired record it notifies the reportable error built per
the claim (message-wrapped `error` field, the field as-is on an empty
message, or an error from the message alone), with all other fields
under the `"metadata"` namespace, returning the submission failure to
the caller. -/
theorem bugsnagHook_fire_characterization :
    (∀ level : Nat, bugsnagHookFires level =
      ((level == logrusErrorLevel) || (level == logrusFatalLevel) ||
        (level == logrusPanicLevel))) ∧
    (∀ (notify : GoError → BugsnagMetaData → Option GoError) (entry : LogrusRecord),
      bugsnagHookFire notify entry =
        notify (reportableErrorSpec entry)
          [("metadata", entry.data.filter (fun kv => kv.1 ≠ "error"))]) := by
  constructor
  · intro level
    simp only [bugsnagHookFires, bugsnagHookLevels, List.contains_cons,
      List.contains_nil, Bool.or_false, Bool.or_assoc]
  · intro notify entry
    simp only [bugsnagHookFire, reportableErrorSpec]
    have harg :
        (match fieldsLookup entry.data "error" with
          | some (.err err) =>
            if entry.message ≠ "" then GoError.wrapError entry.message err else err
          | _ => GoError.errorString entry.message) =
        (match fieldsLookup entry.data "error" with
          | some (.err err) =>
            if entry.message = "" then err else GoError.wrapError entry.message err
          | _ => GoError.errorString entry.message) := by
      cases h : fieldsLookup entry.data "error" with
      | none => rfl
      | some v =>
        cases v with
        | err err =>
          by_cases hm : entry.message = "" <;> simp [hm]
        | str s => rfl
        | int n => rfl
        | uint n => rfl
    rw [harg]
    generalize notify
        (match fieldsLookup entry.data "error" with
          | some (.err err) =>
            if entry.message = "" then err else GoError.wrapError entry.message err
          | _ => GoError.errorString entry.message)
        [("metadata", entry.data.filter (fun kv => kv.1 ≠ "error"))] = res
    cases res <;> rfl

/-- C6: level parsing is total: each of the four exact strings maps to
its logrus level and every other string maps to Info. -/
theorem getLogrusLogLevel_total_with_default :
    ∀ s : String, getLogrusLogLevel s =
      if s = "ERROR" then logrusErrorLevel
      else if s = "WARNING" then logrusWarnLevel
      else if s = "INFO" then logrusInfoLevel
      else if s = "DEBUG" then logrusDebugLevel
      else logrusInfoLevel := by
  intro s
  by_cases h1 : s = "ERROR"
  · simp [getLogrusLogLevel, logLevelLookup, List.find?, h1]
  · by_cases h2 : s = "WARNING"
    · simp [getLogrusLogLevel, logLevelLookup, List.find?, h1, h2, Ne.symm h1]
    · by_cases h3 : s = "INFO"
      · simp [getLogrusLogLevel, logLevelLookup, List.find?, h1, h2, h3,
          Ne.symm h1, Ne.symm h2]
      · by_cases h4 : s = "DEBUG"
        · simp [getLogrusLogLevel, logLevelLookup, List.find?, h1, h2, h3, h4,
            Ne.symm h1, Ne.symm h2, Ne.symm h3]
        · simp [getLogrusLogLevel, logLevelLookup, List.find?, h1, h2, h3, h4,
            Ne.symm h1, Ne.symm h2, Ne.symm h3, Ne.symm h4]

/-- C7: the severity-to-queue-client mapping sends DEBUG to Debug, INFO
to Info, WARNING to Warning, each of ERROR/FATAL/PANIC to Error, and
every other value to Info. -/
theorem getNSQLogLevel_mapping :
    ∀ level : Nat, getNSQLogLevel level = getNSQLogLevelSpec level := by
  intro level
  unfold getNSQLogLevel getNSQLogLevelSpec
  split_ifs <;> simp_all

/-- C8: `Init` is idempotent over the process-wide state: with the
logger already present a further call is the identity (its
configuration is discarded, the logger and the bugsnag configuration
stay as they were), and a repeated `Init` never changes the state
produced by the first. -/
theorem goInit_idempotent :
    (∀ (l : LoggerModel) (bc : Option BugsnagConfigModel) (c : LoggingConfig),
      goInit ⟨some l, bc⟩ c = ⟨some l, bc⟩) ∧
    (∀ (st : ProcessState) (c1 c2 : LoggingConfig),
      goInit (goInit st c1) c2 = goInit st c1) := by
  constructor
  · intro l bc c
    rfl
  · intro st c1 c2
    rcases st with ⟨log, bc⟩
    cases log with
    | none => simp [goInit]
    | some l => simp [goInit]

/-- C10: `WithStringFieldIgnoreEmpty` returns the receiver unchanged
when the value trimmed of white space is empty, and otherwise behaves
exactly as `WithField`. -/
theorem withStringFieldIgnoreEmpty_trim_noop :
    ∀ (e : GoFields) (k v : String),
      withStringFieldIgnoreEmpty e k v =
        if goTrimSpace v = "" then e else withField e k (.str v) := by
  intro e k v
  unfold withStringFieldIgnoreEmpty
  by_cases h : goTrimSpace v = ""
  · simp [h]
  · simp [h, (string_length_pos_iff (goTrimSpace v)).2 h]

/-- Lookup after `WithField`: the set key reads back the new value,
every other key is unchanged. -/
theorem fieldsLookup_withField (e : GoFields) (k key : String) (v : GoValue) :
    fieldsLookup (withField e k v) key =
      if key = k then some v else fieldsLookup e key := by
  by_cases h : key = k
  · rw [h, withField, fieldsLookup_setField_self, if_pos rfl]
  · rw [withField, fieldsLookup_setField_ne e k key v h, if_neg h]

/-- Lookup after `WithStringFieldIgnoreEmpty`: unchanged for a blank
value, else as `WithField`. -/
theorem fieldsLookup_withStringFieldIgnoreEmpty (e : GoFields) (f v key : String) :
    fieldsLookup (withStringFieldIgnoreEmpty e f v) key =
      if goTrimSpace v = "" then fieldsLookup e key
      else if key = f then some (.str v) else fieldsLookup e key := by
  unfold withStringFieldIgnoreEmpty
  by_cases h : goTrimSpace v = ""
  · simp [h]
  · simp [h, (string_length_pos_iff (goTrimSpace v)).2 h, fieldsLookup_withField]

/-- C1 (amended): `WithEvent` splits on `","`; with exactly two parts it
sets `event_name` (omitted when part 0 trims to empty) and `object_id`
from part 1 via `strconv.Atoi` (malformed input gives 0, out-of-range
input saturates to the extreme `int64`); with exactly three parts it
additionally sets `subject_id` under the same policy; with any other
part count only the raw `event` field (omitted when `raw` trims to
empty); every other field of the receiver reads back unchanged and no
error is ever raised. -/
theorem withEvent_field_characterization :
    ∀ (e : GoFields) (raw key : String),
      fieldsLookup (withEvent e raw) key = withEventSpec e raw key := by
  intro e raw key
  simp only [withEvent, withEventSpec]
  by_cases h2 : (goSplit raw ',').length = 2
  · rw [if_pos h2, if_pos h2]
    rw [fieldsLookup_withField, fieldsLookup_withStringFieldIgnoreEmpty]
    by_cases ho : key = "object_id"
    · simp [ho]
    · by_cases hn : key = "event_name" <;>
        by_cases ht : goTrimSpace ((goSplit raw ',').headD "") = "" <;>
        simp [ho, hn, ht]
  · by_cases h3 : (goSplit raw ',').length = 3
    · rw [if_neg h2, if_neg h2, if_pos h3, if_pos h3]
      rw [fieldsLookup_withField, fieldsLookup_withField,
        fieldsLookup_withStringFieldIgnoreEmpty]
      by_cases hs : key = "subject_id"
      · simp [hs]
      · by_cases ho : key = "object_id"
        · simp [hs, ho]
        · by_cases hn : key = "event_name" <;>
            by_cases ht : goTrimSpace ((goSplit raw ',').headD "") = "" <;>
            simp [hs, ho, hn, ht]
    · rw [if_neg h2, if_neg h2, if_neg h3, if_neg h3]
      rw [fieldsLookup_withStringFieldIgnoreEmpty]
      by_cases he : key = "event" <;>
        by_cases ht : goTrimSpace raw = "" <;>
        simp [he, ht]

/-- C1 counterexample: `"9223372036854775808"` (that is `2^63`) fails to
parse — `strconv.Atoi` reports a range error — yet
`WithEvent("x,9223372036854775808")` stores `object_id =
9223372036854775807`, not the 0 the claim's parse-failure policy
predicts. -/
theorem withEvent_atoi_range_counterexample :
    (goAtoi "9223372036854775808").2 = some GoNumErr.outOfRange ∧
    fieldsLookup (withEvent [] "x,9223372036854775808") "object_id" =
      some (.int 9223372036854775807) ∧
    fieldsLookup (withEvent [] "x,9223372036854775808") "object_id" ≠
      some (.int 0) := by
  refine ⟨by decide, by decide, by decide⟩

/-- The Go `Round` implementation equals nearest-millisecond rounding
(ties away from zero) saturated into the `int64` range, for every
`int64` input. -/
theorem durRound_eq_satRound (d : Int)
    (hlo : minInt64 ≤ d) (hhi : d ≤ maxInt64) :
    durRound d = satInt64 (roundNearestMs d) := by
  simp only [durRound, roundNearestMs, satInt64, goRem, wrap64, minInt64, maxInt64] at *
  split_ifs <;> omega

/-- C5 (amended): for every `int64` duration `d`, `WithDuration` sets
`duration_ms` to `d` rounded to the nearest millisecond (ties away from
zero), saturated into the `int64` nanosecond range before the final
truncating division by 1,000,000 — in particular 1,500,000,000 ns gives
1500 — and `WithE2EDuration` stores the same value under
`e2e_duration_ms`. -/
theorem withDuration_rounds_to_millisecond :
    ∀ (e : GoFields) (d : Int), minInt64 ≤ d → d ≤ maxInt64 →
      fieldsLookup (withDuration e d) "duration_ms" =
        some (.int (goQuo (satInt64 (roundNearestMs d)) 1000000)) ∧
      fieldsLookup (withE2EDuration e d) "e2e_duration_ms" =
        some (.int (goQuo (satInt64 (roundNearestMs d)) 1000000)) := by
  intro e d hlo hhi
  have h := durRound_eq_satRound d hlo hhi
  constructor
  · rw [withDuration, withField, fieldsLookup_setField_self, h]
  · rw [withE2EDuration, withField, fieldsLookup_setField_self, h]

/-- Witness for C5 at the claim's own example input 1,500,000,000 ns:
the bounds hold, the theorem applies, and the stored value evaluates to
1500. -/
theorem withDuration_rounds_to_millisecond_witness :
    minInt64 ≤ 1500000000 ∧ (1500000000 : Int) ≤ maxInt64 ∧
    fieldsLookup (withDuration [] 1500000000) "duration_ms" =
      some (.int (goQuo (satInt64 (roundNearestMs 1500000000)) 1000000)) ∧
    goQuo (satInt64 (roundNearestMs 1500000000)) 1000000 = 1500 :=
  ⟨by decide, by decide,
   (withDuration_rounds_to_millisecond [] 1500000000 (by decide) (by decide)).1,
   by decide⟩

/-- C5 counterexample: at `d = math.MaxInt64` the claim's formula
(round to whole milliseconds, then truncating division, with no
saturation) gives 9223372036855, but the code stores 9223372036854,
because `Duration.Round` saturates at `maxDuration`. -/
theorem withDuration_saturation_counterexample :
    claimDurationMs maxInt64 = 9223372036855 ∧
    fieldsLookup (withDuration [] maxInt64) "duration_ms" =
      some (.int 9223372036854) := by
  exact ⟨by decide, by decide⟩

/-- C9 (amended): no enrichment method mutates any existing entry's
field set: every cell readable before the call reads back unchanged
afterwards, for each of the sixteen `With*` methods. (The claim's
"returns a new Entry" fails on the documented no-op paths, which return
the receiver itself — see the counterexample.) -/
theorem entry_methods_preserve_existing_cells :
    ∀ (st : Store) (r : EntryRef), r < st.cells.length →
      (∀ e k v, readCell (withFieldS st e k v).1 r = readCell st r) ∧
      (∀ e kvs, readCell (withFieldsS st e kvs).1 r = readCell st r) ∧
      (∀ e, readCell (withRutilusS st e).1 r = readCell st r) ∧
      (∀ e m, readCell (withHTTPMethodS st e m).1 r = readCell st r) ∧
      (∀ e c, readCell (withHTTPResponseCodeS st e c).1 r = readCell st r) ∧
      (∀ e k v, readCell (withStringFieldIgnoreEmptyS st e k v).1 r = readCell st r) ∧
      (∀ e u, readCell (withUserS st e u).1 r = readCell st r) ∧
      (∀ e ev, readCell (withEventS st e ev).1 r = readCell st r) ∧
      (∀ e rel, readCell (withRelationS st e rel).1 r = readCell st r) ∧
      (∀ e i, readCell (withNSQMessageIDS st e i).1 r = readCell st r) ∧
      (∀ e d, readCell (withDurationS st e d).1 r = readCell st r) ∧
      (∀ e d, readCell (withE2EDurationS st e d).1 r = readCell st r) ∧
      (∀ e c, readCell (withChannelS st e c).1 r = readCell st r) ∧
      (∀ e, readCell (withFCMS st e).1 r = readCell st r) ∧
      (∀ e, readCell (withNotificationlistS st e).1 r = readCell st r) ∧
      (∀ e er, readCell (withErrorS st e er).1 r = readCell st r) ∧
      (∀ e ctx, readCell (withDDTraceS st e ctx).1 r = readCell st r) := by
  intro st r hr
  refine ⟨fun e k v => (storeExtends_withFieldS st e k v).2 r hr,
    fun e kvs => (storeExtends_withFieldsS st e kvs).2 r hr,
    fun e => (storeExtends_withFieldS st e "service" (.str "rutilus")).2 r hr,
    fun e m => (storeExtends_withFieldS st e "http_method" (.str m)).2 r hr,
    fun e c => (storeExtends_withFieldS st e "http_response_code" (.str (toString c))).2 r hr,
    fun e k v => (storeExtends_withStringFieldIgnoreEmptyS st e k v).2 r hr,
    fun e u => (storeExtends_withFieldS st e "user_id" (.uint u)).2 r hr,
    fun e ev => (storeExtends_withEventS st e ev).2 r hr,
    fun e rel => (storeExtends_withStringFieldIgnoreEmptyS st e "relation" rel).2 r hr,
    fun e i => (storeExtends_withStringFieldIgnoreEmptyS st e "nsq_message_id" i).2 r hr,
    fun e d => (storeExtends_withFieldS st e "duration_ms" _).2 r hr,
    fun e d => (storeExtends_withFieldS st e "e2e_duration_ms" _).2 r hr,
    fun e c => (storeExtends_withFieldS st e "channel" (.str c)).2 r hr,
    fun e => (storeExtends_withFieldS st e "channel" (.str "fcm")).2 r hr,
    fun e => (storeExtends_withFieldS st e "channel" (.str "notificationlist")).2 r hr,
    fun e er => (storeExtends_withFieldS st e "error" (.err er)).2 r hr,
    fun e ctx => (storeExtends_withDDTraceS st e ctx).2 r hr⟩

/-- Witness for C9 on a concrete one-cell store: the bound holds and
both a `WithField` call and a `WithEvent` call leave cell 0 readable
and unchanged. -/
theorem entry_methods_preserve_existing_cells_witness :
    0 < (Store.mk [[("service", GoValue.str "rutilus")]]).cells.length ∧
    readCell
        (withFieldS (Store.mk [[("service", GoValue.str "rutilus")]]) 0 "user_id"
          (GoValue.uint 7)).1 0 =
      readCell (Store.mk [[("service", GoValue.str "rutilus")]]) 0 ∧
    readCell
        (withEventS (Store.mk [[("service", GoValue.str "rutilus")]]) 0 "purchase,42").1 0 =
      readCell (Store.mk [[("service", GoValue.str "rutilus")]]) 0 :=
  ⟨by decide,
   (entry_methods_preserve_existing_cells
      (Store.mk [[("service", GoValue.str "rutilus")]]) 0 (by decide)).1 0 "user_id"
      (GoValue.uint 7),
   (entry_methods_preserve_existing_cells
      (Store.mk [[("service", GoValue.str "rutilus")]]) 0 (by decide)).2.2.2.2.2.2.2.1 0
      "purchase,42"⟩

/-- C9 counterexample: `WithStringFieldIgnoreEmpty` with a blank value
returns the receiver itself — the store is untouched and the returned
reference is the existing entry 0, not a freshly allocated one — so
"the call returns a new Entry" is false as stated. -/
theorem withStringFieldIgnoreEmptyS_returns_receiver_counterexample :
    withStringFieldIgnoreEmptyS (Store.mk [[]]) 0 "relation" "" = (Store.mk [[]], 0) ∧
    (0 : EntryRef) < (Store.mk [[]] : Store).cells.length := by
  exact ⟨by decide, by decide⟩
